import Mathlib

/-!
Verification of the apca repository's request/response type system against
its specification.  The Rust sources under `apca-rest/src` are shallowly
embedded: JSON documents become an inductive `Json` type, `rust_decimal`
decimals become mantissa/scale pairs, `uuid::Uuid` becomes its 128-bit
value, and each serde codec (custom `deserialize_with`/`serialize_with`
function, `flatten`/tag attribute, untagged union) becomes an executable
Lean function mirroring the serde-generated code.
-/

namespace Apca

/-- Model of a JSON value.  Numbers are restricted to integers; every
numeric literal appearing in the payloads relevant to the verified claims
is an integer. -/
inductive Json where
  | null
  | bool (b : Bool)
  | num (n : Int)
  | str (s : String)
  | arr (elems : List Json)
  | obj (fields : List (String × Json))

/-- First-occurrence lookup of a key in a JSON object's field list
(serde reads map entries in order; the verified payloads have no
duplicate keys). -/
def lookupField : List (String × Json) → String → Option Json
  | [], _ => none
  | (k, v) :: rest, key => if k = key then some v else lookupField rest key

/-- Whether a key occurs in a JSON object's field list. -/
def hasField (fields : List (String × Json)) (key : String) : Bool :=
  (lookupField fields key).isSome

/-- Decimal digit characters, most significant first, of `n`; `[]` for zero.
Model of the digit loop inside Rust's `Display` for unsigned integers.  The
first argument is recursion fuel; `n` itself always suffices. -/
def decDigitsAux : Nat → Nat → List Char
  | 0, _ => []
  | fuel + 1, n =>
    if n = 0 then []
    else decDigitsAux fuel (n / 10) ++ [Char.ofNat (48 + n % 10)]

/-- Decimal digit characters of a positive number, `[]` for zero. -/
def decDigitsCore (n : Nat) : List Char :=
  decDigitsAux n n

/-- Decimal numeral of a natural number, as Rust's `Display` for `usize`
prints it. -/
def natToWire (n : Nat) : String :=
  if n = 0 then "0" else String.mk (decDigitsCore n)

/-- Numeric value of an ASCII decimal digit. -/
def digitVal? (c : Char) : Option Nat :=
  if '0' ≤ c ∧ c ≤ '9' then some (c.toNat - 48) else none

/-- Fold a list of decimal digit characters into a value; `none` when a
character is not a digit. -/
def digitsVal? : List Char → Option Nat → Option Nat
  | [], acc => acc
  | c :: cs, acc =>
    match acc, digitVal? c with
    | some a, some d => digitsVal? cs (some (a * 10 + d))
    | _, _ => none

/-- Model of `usize::from_str` on a 64-bit platform: an optional leading
`+`, then one or more ASCII digits, overflow of `u64` rejected.  (Rust
rejects a leading `-` for unsigned integers, as does this model by not
treating `-` as a digit.) -/
def parseUsizeChars (cs0 : List Char) : Option Nat :=
  let cs := match cs0 with
    | '+' :: rest => rest
    | l => l
  match cs with
  | [] => none
  | _ =>
    match digitsVal? cs (some 0) with
    | some v => if v < 2 ^ 64 then some v else none
    | none => none

/-- String-level `usize::from_str`. -/
def parseUsize (s : String) : Option Nat :=
  parseUsizeChars s.data

/-- Model of `utils::from_str` instantiated at `T = usize` (used for
`Order.qty` and `Order.filled_qty`): `String::deserialize` accepts only a
JSON string token, then `usize::from_str` parses it. -/
def from_str_usize : Json → Except String Nat
  | Json.str s =>
    match parseUsize s with
    | some n => Except.ok n
    | none => Except.error "invalid digit found in string"
  | _ => Except.error "invalid type: expected a string"

/-- Model of `utils::to_string` instantiated at `T = usize`: the value is
written back as its decimal numeral in a JSON string token. -/
def to_string_usize (n : Nat) : Json :=
  Json.str (natToWire n)

/-- Model of `i32::from_str`: optional sign, digits, 32-bit bounds. -/
def parseI32 (s : String) : Option Int :=
  let (neg, cs) : Bool × List Char := match s.data with
    | '+' :: rest => (false, rest)
    | '-' :: rest => (true, rest)
    | l => (false, l)
  match cs with
  | [] => none
  | _ =>
    match digitsVal? cs (some 0) with
    | some v =>
      if neg then
        if v ≤ 2 ^ 31 then some (-(v : Int)) else none
      else
        if v < 2 ^ 31 then some (v : Int) else none
    | none => none

/-- Model of `utils::from_str_optional` instantiated at `T = i32` (used
for `NonTradeActivity.qty`): the raw value is first deserialized into a
`serde_json::Value` (which always succeeds on a JSON document); a string
is then parsed with `i32::from_str` (a failure is a decode error), while
any non-string value — number, null, bool, array, object — yields
`Ok(None)`. -/
def from_str_optional_i32 : Json → Except String (Option Int)
  | Json.str s =>
    match parseI32 s with
    | some n => Except.ok (some n)
    | none => Except.error "invalid digit found in string"
  | _ => Except.ok none

/-- Model of `rust_decimal::Decimal`: a scaled integer, `mantissa * 10 ^ (-scale)`.
The claims never compare decimals arithmetically, so no normalisation is needed. -/
structure Decimal where
  mantissa : Int
  scale : Nat

/-- Model of `Decimal::new` (mantissa and scale). -/
def Decimal.new (m : Int) (s : Nat) : Decimal := ⟨m, s⟩

/-- Decimal numeral of a natural number including zero. -/
def natDecChars (n : Nat) : List Char :=
  if n = 0 then ['0'] else decDigitsCore n

/-- Model of `rust_decimal`'s `Display`: sign, then the mantissa's digits with
a decimal point inserted `scale` places from the right, zero-padded so that at
least one digit stands before the point.  Trailing zeros are kept. -/
def Decimal.toWire (d : Decimal) : String :=
  let sign := if d.mantissa < 0 then "-" else ""
  let ds := natDecChars d.mantissa.natAbs
  if d.scale = 0 then sign ++ String.mk ds
  else
    let padded := List.replicate (d.scale + 1 - ds.length) '0' ++ ds
    sign ++ String.mk (padded.take (padded.length - d.scale)) ++ "." ++
      String.mk (padded.drop (padded.length - d.scale))

/-- Split a character list at the first occurrence of `sep`; model of Rust's
`str::split_once`. -/
def splitOnce (sep : Char) : List Char → Option (List Char × List Char)
  | [] => none
  | c :: cs =>
    if c = sep then some ([], cs)
    else
      match splitOnce sep cs with
      | some (a, b) => some (c :: a, b)
      | none => none

/-- Model of `rust_decimal`'s `FromStr`: optional sign, integer digits,
optionally a point and fraction digits; the scale is the number of fraction
digits.  The 96-bit mantissa and 28-digit scale bounds of `rust_decimal` are
enforced; its underscore separators and scientific-notation fallback are not
modelled (no verified payload uses them). -/
def decimalFromStr (s : String) : Option Decimal :=
  let signedTail : Bool × List Char :=
    match s.data with
    | '+' :: rest => (false, rest)
    | '-' :: rest => (true, rest)
    | l => (false, l)
  let neg := signedTail.1
  let cs := signedTail.2
  let parts : List Char × List Char :=
    match splitOnce '.' cs with
    | some (a, b) => (a, b)
    | none => (cs, [])
  let intPart := parts.1
  let fracPart := parts.2
  let hasPoint := (splitOnce '.' cs).isSome
  if intPart.isEmpty then none
  else if hasPoint ∧ fracPart.isEmpty then none
  else
    match digitsVal? (intPart ++ fracPart) (some 0) with
    | some v =>
      if v < 2 ^ 96 ∧ fracPart.length ≤ 28 then
        some ⟨if neg then -(v : Int) else (v : Int), fracPart.length⟩
      else none
    | none => none

/-- Model of `rust_decimal`'s serde `Deserialize`: a string is parsed with
`FromStr`; an integer literal becomes a decimal of scale 0; other JSON values
are decode errors. -/
def decodeDecimal : Json → Option Decimal
  | Json.str s => decimalFromStr s
  | Json.num n => if n.natAbs < 2 ^ 96 then some ⟨n, 0⟩ else none
  | _ => none

/-- Model of `uuid::Uuid`: its 128-bit value. -/
structure Uuid where
  val : Nat
deriving DecidableEq

/-- Model of `Uuid::nil`. -/
def Uuid.nil : Uuid := ⟨0⟩

/-- Value of a hexadecimal digit character, both cases accepted. -/
def hexVal? (c : Char) : Option Nat :=
  if '0' ≤ c ∧ c ≤ '9' then some (c.toNat - 48)
  else if 'a' ≤ c ∧ c ≤ 'f' then some (c.toNat - 87)
  else if 'A' ≤ c ∧ c ≤ 'F' then some (c.toNat - 55)
  else none

/-- Parse every character of a list as a hex digit. -/
def parseNibbles : List Char → Option (List Nat)
  | [] => some []
  | c :: cs =>
    match hexVal? c, parseNibbles cs with
    | some d, some ds => some (d :: ds)
    | _, _ => none

/-- Recompose a big-endian nibble list into a value. -/
def nibblesVal (l : List Nat) : Nat :=
  l.foldl (fun a d => a * 16 + d) 0

/-- Parse 32 hex characters (length already checked by the caller) into a Uuid. -/
def uuidFromHexChars (cs : List Char) : Option Uuid :=
  (parseNibbles cs).map (fun ds => ⟨nibblesVal ds⟩)

/-- Check the four hyphen positions of the 8-4-4-4-12 layout and extract the
32 hex characters; model of the hyphenated branch of `Uuid::parse_str`. -/
def dehyphenate? (l : List Char) : Option (List Char) :=
  if l.get? 8 = some '-' ∧ l.get? 13 = some '-' ∧ l.get? 18 = some '-' ∧ l.get? 23 = some '-' then
    some (l.take 8 ++ (l.drop 9).take 4 ++ (l.drop 14).take 4 ++ (l.drop 19).take 4 ++ l.drop 24)
  else none

/-- Model of `Uuid::parse_str`: dispatch on length — 32 is the simple form,
36 the hyphenated form, 45 the `urn:uuid:` form (each with case-insensitive
hex).  The braced form of uuid crate 1.x is not modelled; no claim depends
on a braced string. -/
def uuidParseChars (cs : List Char) : Option Uuid :=
  if cs.length = 32 then uuidFromHexChars cs
  else if cs.length = 36 then
    match dehyphenate? cs with
    | some hx => uuidFromHexChars hx
    | none => none
  else if cs.length = 45 then
    match cs with
    | 'u' :: 'r' :: 'n' :: ':' :: 'u' :: 'u' :: 'i' :: 'd' :: ':' :: rest =>
      match dehyphenate? rest with
      | some hx => uuidFromHexChars hx
      | none => none
    | _ => none
  else none

/-- String-level `Uuid::parse_str`. -/
def uuidParseStr (s : String) : Option Uuid :=
  uuidParseChars s.data

/-- Big-endian base-16 digits of `u`, `n` of them (most significant first). -/
def nibbles : Nat → Nat → List Nat
  | 0, _ => []
  | n + 1, u => nibbles n (u / 16) ++ [u % 16]

/-- Lowercase hex digit character of a nibble. -/
def toHexChar (d : Nat) : Char :=
  if d < 10 then Char.ofNat (48 + d) else Char.ofNat (87 + d)

/-- Insert the canonical hyphens into a 32-character hex string. -/
def hyphenate (cs : List Char) : List Char :=
  cs.take 8 ++ '-' :: ((cs.drop 8).take 4 ++ '-' :: ((cs.drop 12).take 4 ++ '-' ::
    ((cs.drop 16).take 4 ++ '-' :: cs.drop 20)))

/-- The 32 lowercase hex characters of a Uuid. -/
def Uuid.simpleChars (u : Uuid) : List Char :=
  (nibbles 32 u.val).map toHexChar

/-- Model of `uuid::Uuid`'s `Display`: canonical lowercase hyphenated text. -/
def Uuid.format (u : Uuid) : String :=
  String.mk (hyphenate u.simpleChars)

/-- Model of `common::Identifier`: a symbol with optional exchange and
optional asset class, or an asset id. -/
inductive Identifier where
  | Symbol (symbol : String) (info : Option (String × Option String))
  | AssetId (id : Uuid)

/-- Model of `impl From<&str> for Identifier`: attempt a UUID parse first;
otherwise split on the first colon, and split the remainder once more. -/
def identifierFromStr (s : String) : Identifier :=
  match uuidParseStr s with
  | some u => Identifier.AssetId u
  | none =>
    match splitOnce ':' s.data with
    | some (symbol, rest) =>
      match splitOnce ':' rest with
      | some (exchange, assetClass) =>
        Identifier.Symbol (String.mk symbol)
          (some (String.mk exchange, some (String.mk assetClass)))
      | none => Identifier.Symbol (String.mk symbol) (some (String.mk rest, none))
    | none => Identifier.Symbol s none

/-- Model of `impl Display for Identifier`. -/
def Identifier.toWire : Identifier → String
  | Identifier.AssetId u => u.format
  | Identifier.Symbol symbol none => symbol
  | Identifier.Symbol symbol (some (exchange, none)) => symbol ++ ":" ++ exchange
  | Identifier.Symbol symbol (some (exchange, some assetClass)) =>
    symbol ++ ":" ++ exchange ++ ":" ++ assetClass

namespace orders

/-- Model of `orders::OrderType` (field names and order follow the source). -/
inductive OrderType where
  | Market
  | Limit (limit_price : Decimal)
  | Stop (stop_price : Decimal)
  | StopLimit (limit_price : Decimal) (stop_price : Decimal)
  | TrailingStop (trail_price : Option Decimal) (trail_percent : Option Decimal)

/-- Model of `impl Default for OrderType`. -/
def OrderType.default : OrderType := OrderType.Market

/-- Serialization of an optional decimal field that carries no
`skip_serializing_if` attribute: `None` is written as JSON null. -/
def serializeOptDecimal : Option Decimal → Json
  | some d => Json.str d.toWire
  | none => Json.null

/-- Serde encoding of `OrderType` (`tag = "type"`, `rename_all = "snake_case"`):
the `type` discriminator followed by the chosen variant's fields, to be merged
flat into the surrounding object.  Decimals are written as strings. -/
def OrderType.encodeFlat : OrderType → List (String × Json)
  | OrderType.Market => [("type", Json.str "market")]
  | OrderType.Limit lp => [("type", Json.str "limit"), ("limit_price", Json.str lp.toWire)]
  | OrderType.Stop sp => [("type", Json.str "stop"), ("stop_price", Json.str sp.toWire)]
  | OrderType.StopLimit lp sp =>
    [("type", Json.str "stop_limit"), ("limit_price", Json.str lp.toWire),
     ("stop_price", Json.str sp.toWire)]
  | OrderType.TrailingStop tp tpc =>
    [("type", Json.str "trailing_stop"), ("trail_price", serializeOptDecimal tp),
     ("trail_percent", serializeOptDecimal tpc)]

/-- Model of `orders::TimeInForce`. -/
inductive TimeInForce where
  | Day
  | GoodTilCancelled
  | Open
  | Close
  | ImmediateOrCancel
  | FillOrKill

/-- Wire names of `TimeInForce` (per-variant serde renames). -/
def TimeInForce.toWire : TimeInForce → String
  | TimeInForce.Day => "day"
  | TimeInForce.GoodTilCancelled => "gtc"
  | TimeInForce.Open => "opg"
  | TimeInForce.Close => "cls"
  | TimeInForce.ImmediateOrCancel => "ioc"
  | TimeInForce.FillOrKill => "fok"

/-- Model of `impl Default for TimeInForce`. -/
def TimeInForce.default : TimeInForce := TimeInForce.Day

/-- Model of `orders::Side`. -/
inductive Side where
  | Buy
  | Sell

/-- Wire names of `orders::Side` (`rename_all = "snake_case"`). -/
def Side.toWire : Side → String
  | Side.Buy => "buy"
  | Side.Sell => "sell"

/-- Model of `impl Default for Side`. -/
def Side.default : Side := Side.Buy

/-- Model of `orders::TakeProfitSpec`. -/
structure TakeProfitSpec where
  limit_price : Decimal

/-- Serde encoding of `TakeProfitSpec`. -/
def TakeProfitSpec.encode (t : TakeProfitSpec) : Json :=
  Json.obj [("limit_price", Json.str t.limit_price.toWire)]

/-- Model of `orders::StopLossSpec`; `limit_price` carries
`skip_serializing_if = "Option::is_none"`. -/
structure StopLossSpec where
  stop_price : Decimal
  limit_price : Option Decimal

/-- Serde encoding of `StopLossSpec`: `limit_price` is omitted when unset. -/
def StopLossSpec.encode (s : StopLossSpec) : Json :=
  Json.obj ([("stop_price", Json.str s.stop_price.toWire)] ++
    match s.limit_price with
    | some lp => [("limit_price", Json.str lp.toWire)]
    | none => [])

/-- Model of `orders::OtoSpec` (externally tagged, no serde attributes). -/
inductive OtoSpec where
  | TakeProfit (spec : TakeProfitSpec)
  | StopLoss (spec : StopLossSpec)

/-- Serde encoding of `OtoSpec` (external tagging with verbatim variant names). -/
def OtoSpec.encode : OtoSpec → Json
  | OtoSpec.TakeProfit t => Json.obj [("TakeProfit", t.encode)]
  | OtoSpec.StopLoss s => Json.obj [("StopLoss", s.encode)]

/-- Model of `orders::OrderClass`. -/
inductive OrderClass where
  | Simple
  | Bracket (take_profit : TakeProfitSpec) (stop_loss : StopLossSpec)
  | OneCancelsOther (take_profit : TakeProfitSpec) (stop_loss : StopLossSpec)
  | OneTriggersOther (spec : OtoSpec)

/-- Model of `impl Default for OrderClass`. -/
def OrderClass.default : OrderClass := OrderClass.Simple

/-- Serde encoding of `OrderClass` (`tag = "order_class"`,
`rename_all = "lowercase"`): the discriminator followed by the variant's
fields, to be merged flat into the surrounding object. -/
def OrderClass.encodeFlat : OrderClass → List (String × Json)
  | OrderClass.Simple => [("order_class", Json.str "simple")]
  | OrderClass.Bracket tp sl =>
    [("order_class", Json.str "bracket"), ("take_profit", tp.encode), ("stop_loss", sl.encode)]
  | OrderClass.OneCancelsOther tp sl =>
    [("order_class", Json.str "onecancelsother"), ("take_profit", tp.encode),
     ("stop_loss", sl.encode)]
  | OrderClass.OneTriggersOther sp =>
    [("order_class", Json.str "onetriggersother"), ("spec", sp.encode)]

/-- Model of `orders::SubmitOrder` (the outbound order body). -/
structure SubmitOrder where
  symbol : String
  qty : Nat
  side : Side
  order_type : OrderType
  time_in_force : TimeInForce
  extended_hours : Bool
  client_order_id : Option String
  order_class : OrderClass

/-- Model of `SubmitOrder::new`. -/
def SubmitOrder.new (symbol : String) : SubmitOrder :=
  { symbol := symbol
    qty := 1
    side := Side.Buy
    order_type := OrderType.Market
    time_in_force := TimeInForce.GoodTilCancelled
    extended_hours := false
    client_order_id := none
    order_class := OrderClass.Simple }

/-- Serde JSON encoding of `SubmitOrder`: fields in declaration order, the
`qty` written through `utils::to_string` as a decimal string, the flattened
`order_type` inlined at its position, and `client_order_id` — which carries
no `skip_serializing_if` attribute — written as null when unset. -/
def SubmitOrder.encode (o : SubmitOrder) : List (String × Json) :=
  [("symbol", Json.str o.symbol), ("qty", Json.str (natToWire o.qty)),
   ("side", Json.str o.side.toWire)]
  ++ o.order_type.encodeFlat
  ++ [("time_in_force", Json.str o.time_in_force.toWire),
      ("extended_hours", Json.bool o.extended_hours),
      ("client_order_id",
        match o.client_order_id with
        | some c => Json.str c
        | none => Json.null)]
  ++ o.order_class.encodeFlat

/-- Decode of the `qty` and `filled_qty` fields of an inbound `Order` payload,
both read through `utils::from_str` at `T = usize`; a missing field is a
decode error (they carry no default). -/
def decodeOrderQtyFields (j : Json) : Except String (Nat × Nat) :=
  match j with
  | Json.obj fields =>
    match lookupField fields "qty" with
    | none => Except.error "missing field qty"
    | some qv =>
      match from_str_usize qv with
      | Except.error e => Except.error e
      | Except.ok q =>
        match lookupField fields "filled_qty" with
        | none => Except.error "missing field filled_qty"
        | some fv =>
          match from_str_usize fv with
          | Except.error e => Except.error e
          | Except.ok fq => Except.ok (q, fq)
  | _ => Except.error "invalid type: expected a map"

/-- Encode of the `qty` and `filled_qty` fields of an `Order`, both written
through `utils::to_string`. -/
def encodeOrderQtyFields (q fq : Nat) : List (String × Json) :=
  [("qty", to_string_usize q), ("filled_qty", to_string_usize fq)]

end orders

namespace account_activities

/-- Model of `account_activities::FillType`. -/
inductive FillType where
  | Fill
  | PartialFill

/-- Deserialization of `FillType` (`rename_all = "snake_case"`). -/
def FillType.fromWire : String → Option FillType
  | "fill" => some FillType.Fill
  | "partial_fill" => some FillType.PartialFill
  | _ => none

/-- Model of `account_activities::Side`. -/
inductive Side where
  | Buy
  | Sell
  | SellShort

/-- Deserialization of `account_activities::Side` (per-variant renames). -/
def Side.fromWire : String → Option Side
  | "buy" => some Side.Buy
  | "sell" => some Side.Sell
  | "sell_short" => some Side.SellShort
  | _ => none

/-- Model of `account_activities::ActivityType` (source order kept). -/
inductive ActivityType where
  | Fill
  | CashTransactions
  | Miscellaneous
  | AcatsCash
  | AcatsSecurities
  | CashDeposit
  | CashWithdrawal
  | Dividend
  | DividendLongTermCapitalGain
  | DividendShortTermCapitalGain
  | DividendFee
  | DividendForeignTaxWithheld
  | DividendNraWithheld
  | DividendReturnOfCapital
  | DividendTefraWithheld
  | DividendTaxExempt
  | Interest
  | InterestNraWithheld
  | InterestTefraWithheld
  | JournalEntry
  | JournalEntryCash
  | JournalEntryStock
  | MergerAcquisition
  | NameChange
  | OptionAssignment
  | OptionExpiration
  | OptionExercise
  | PassThroughCharge
  | PassThroughRebate
  | Reorgnization
  | SymbolChange
  | StockSpinoff
  | StockSplit

/-- Deserialization of `ActivityType` from its serde renames.  The source
declares two variants renamed "DIVTXEX"; as in the serde-generated match,
the first (`DividendTefraWithheld`) wins. -/
def ActivityType.fromWire : String → Option ActivityType
  | "FILL" => some ActivityType.Fill
  | "TRANS" => some ActivityType.CashTransactions
  | "MISC" => some ActivityType.Miscellaneous
  | "ACATC" => some ActivityType.AcatsCash
  | "ACATS" => some ActivityType.AcatsSecurities
  | "CSD" => some ActivityType.CashDeposit
  | "CSW" => some ActivityType.CashWithdrawal
  | "DIV" => some ActivityType.Dividend
  | "DIVCGL" => some ActivityType.DividendLongTermCapitalGain
  | "DIVCGS" => some ActivityType.DividendShortTermCapitalGain
  | "DIVFEE" => some ActivityType.DividendFee
  | "DIVFT" => some ActivityType.DividendForeignTaxWithheld
  | "DIVNRA" => some ActivityType.DividendNraWithheld
  | "DIVROC" => some ActivityType.DividendReturnOfCapital
  | "DIVTXEX" => some ActivityType.DividendTefraWithheld
  | "INT" => some ActivityType.Interest
  | "INTNRA" => some ActivityType.InterestNraWithheld
  | "INTTW" => some ActivityType.InterestTefraWithheld
  | "JNL" => some ActivityType.JournalEntry
  | "JNLC" => some ActivityType.JournalEntryCash
  | "JNLS" => some ActivityType.JournalEntryStock
  | "MA" => some ActivityType.MergerAcquisition
  | "NC" => some ActivityType.NameChange
  | "OPASN" => some ActivityType.OptionAssignment
  | "OPEXP" => some ActivityType.OptionExpiration
  | "OPXRC" => some ActivityType.OptionExercise
  | "PTC" => some ActivityType.PassThroughCharge
  | "PTR" => some ActivityType.PassThroughRebate
  | "REORG" => some ActivityType.Reorgnization
  | "SC" => some ActivityType.SymbolChange
  | "SSO" => some ActivityType.StockSpinoff
  | "SSP" => some ActivityType.StockSplit
  | _ => none

/-- Whether a proleptic Gregorian year is a leap year. -/
def isLeapYear (y : Nat) : Bool :=
  decide (y % 4 = 0 ∧ (y % 100 ≠ 0 ∨ y % 400 = 0))

/-- Number of days of a month. -/
def daysInMonth (y m : Nat) : Nat :=
  if m = 2 then (if isLeapYear y then 29 else 28)
  else if m = 4 ∨ m = 6 ∨ m = 9 ∨ m = 11 then 30
  else 31

/-- Calendar validity of a year/month/day triple, as chrono checks it. -/
def dateValidB (y m d : Nat) : Bool :=
  decide (1 ≤ m ∧ m ≤ 12 ∧ 1 ≤ d ∧ d ≤ daysInMonth y m)

/-- Model of `chrono::NaiveDate` restricted to the common-era years the wire
format uses (four-digit years). -/
structure NaiveDate where
  year : Nat
  month : Nat
  day : Nat

/-- Deserialization of `NaiveDate` from its `%Y-%m-%d` wire form (zero-padded
components, as all payloads are), with calendar validation. -/
def parseNaiveDate (s : String) : Option NaiveDate :=
  match s.data with
  | [y1, y2, y3, y4, '-', m1, m2, '-', d1, d2] =>
    match digitsVal? [y1, y2, y3, y4] (some 0), digitsVal? [m1, m2] (some 0),
          digitsVal? [d1, d2] (some 0) with
    | some y, some m, some d => if dateValidB y m d then some ⟨y, m, d⟩ else none
    | _, _, _ => none
  | _ => none

/-- Model of `chrono::DateTime<Utc>` as its parsed RFC 3339 components.  The
subsecond digits are kept as their numeric value and the offset in minutes;
chrono's normalisation of a nonzero offset into the UTC instant is not
modelled (no claim compares instants). -/
structure DateTimeUtc where
  year : Nat
  month : Nat
  day : Nat
  hour : Nat
  minute : Nat
  second : Nat
  subsec : Nat
  offsetMinutes : Int

/-- Split a character list into its leading run of decimal digits and the rest. -/
def spanDigits : List Char → List Char × List Char
  | [] => ([], [])
  | c :: cs =>
    if (digitVal? c).isSome then
      let p := spanDigits cs
      (c :: p.1, p.2)
    else ([], c :: cs)

/-- Parse the RFC 3339 offset suffix: `Z` (either case) or `±hh:mm`. -/
def parseOffset : List Char → Option Int
  | ['Z'] => some 0
  | ['z'] => some 0
  | [sgn, a, b, ':', c, d] =>
    if sgn = '+' ∨ sgn = '-' then
      match digitsVal? [a, b] (some 0), digitsVal? [c, d] (some 0) with
      | some hh, some mm =>
        if hh < 24 ∧ mm < 60 then
          some (if sgn = '-' then -((hh * 60 + mm : Nat) : Int) else ((hh * 60 + mm : Nat) : Int))
        else none
      | _, _ => none
    else none
  | _ => none

/-- Parse the optional fraction (a point and one or more digits) and the
offset that closes an RFC 3339 timestamp. -/
def parseFracAndOffset (cs : List Char) : Option (Nat × Int) :=
  match cs with
  | '.' :: rest =>
    let p := spanDigits rest
    match p.1 with
    | [] => none
    | ds =>
      match digitsVal? ds (some 0), parseOffset p.2 with
      | some v, some off => some (v, off)
      | _, _ => none
  | _ =>
    match parseOffset cs with
    | some off => some (0, off)
    | none => none

/-- Deserialization of `DateTime<Utc>` from RFC 3339 text, as chrono's serde
support parses it: date, `T` (either case), time, optional fraction, offset. -/
def parseRfc3339 (s : String) : Option DateTimeUtc :=
  match s.data with
  | y1 :: y2 :: y3 :: y4 :: '-' :: m1 :: m2 :: '-' :: d1 :: d2 :: t :: h1 :: h2 :: ':'
      :: mi1 :: mi2 :: ':' :: s1 :: s2 :: rest =>
    if t = 'T' ∨ t = 't' then
      match digitsVal? [y1, y2, y3, y4] (some 0), digitsVal? [m1, m2] (some 0),
            digitsVal? [d1, d2] (some 0), digitsVal? [h1, h2] (some 0),
            digitsVal? [mi1, mi2] (some 0), digitsVal? [s1, s2] (some 0) with
      | some y, some mo, some d, some h, some mi, some sec =>
        if dateValidB y mo d ∧ h < 24 ∧ mi < 60 ∧ sec < 60 then
          match parseFracAndOffset rest with
          | some fo => some ⟨y, mo, d, h, mi, sec, fo.1, fo.2⟩
          | none => none
        else none
      | _, _, _, _, _, _ => none
    else none
  | _ => none

/-- Model of `account_activities::Activity` (untagged union).  Constructor
argument names and order follow the source fields; `fill_type` is the field
serde renames to `type` on the wire. -/
inductive Activity where
  | TradeActivity (activity_type : ActivityType) (cum_qty : Decimal) (id : String)
      (leaves_qty : Decimal) (price : Decimal) (qty : Decimal) (side : Side)
      (symbol : String) (transaction_time : DateTimeUtc) (order_id : Uuid)
      (fill_type : FillType)
  | NonTradeActivity (activity_type : ActivityType) (id : String) (date : NaiveDate)
      (net_amount : Decimal) (symbol : Option String) (qty : Option Int)
      (per_share_amount : Option Decimal)

/-- Model of `Activity::id`. -/
def Activity.id : Activity → String
  | Activity.TradeActivity _ _ i _ _ _ _ _ _ _ _ => i
  | Activity.NonTradeActivity _ i _ _ _ _ _ => i

/-- Whether an activity is the trade variant. -/
def Activity.isTrade : Activity → Bool
  | Activity.TradeActivity _ _ _ _ _ _ _ _ _ _ _ => true
  | Activity.NonTradeActivity _ _ _ _ _ _ _ => false

/-- Decode a required field: it must be present and its value must decode. -/
def reqField (fields : List (String × Json)) (key : String)
    (dec : Json → Option α) : Option α :=
  match lookupField fields key with
  | some v => dec v
  | none => none

/-- Decode an optional field of plain `Option` type: an absent field is `None`. -/
def optField (fields : List (String × Json)) (key : String)
    (dec : Json → Option (Option α)) : Option (Option α) :=
  match lookupField fields key with
  | some v => dec v
  | none => some none

/-- Decode a JSON string token. -/
def decodeString : Json → Option String
  | Json.str s => some s
  | _ => none

/-- Decode an `ActivityType` field. -/
def decodeActivityType : Json → Option ActivityType
  | Json.str s => ActivityType.fromWire s
  | _ => none

/-- Decode a `Side` field. -/
def decodeSide : Json → Option Side
  | Json.str s => Side.fromWire s
  | _ => none

/-- Decode a `FillType` field. -/
def decodeFillType : Json → Option FillType
  | Json.str s => FillType.fromWire s
  | _ => none

/-- Decode a `Uuid` field. -/
def decodeUuid : Json → Option Uuid
  | Json.str s => uuidParseStr s
  | _ => none

/-- Decode a `DateTime<Utc>` field. -/
def decodeDateTimeUtc : Json → Option DateTimeUtc
  | Json.str s => parseRfc3339 s
  | _ => none

/-- Decode a `NaiveDate` field. -/
def decodeNaiveDate : Json → Option NaiveDate
  | Json.str s => parseNaiveDate s
  | _ => none

/-- Decode an `Option<String>` value: null is `None`, a string is `Some`. -/
def decodeOptString : Json → Option (Option String)
  | Json.null => some none
  | Json.str s => some (some s)
  | _ => none

/-- Decode an `Option<Decimal>` value: null is `None`, otherwise the decimal
codec applies. -/
def decodeOptDecimal : Json → Option (Option Decimal)
  | Json.null => some none
  | j => (decodeDecimal j).map some

/-- Attempted decode of the `TradeActivity` shape: every field is required
(none has a default), unknown fields are ignored. -/
def decodeTradeActivity (j : Json) : Option Activity :=
  match j with
  | Json.obj fields => do
    let aty ← reqField fields "activity_type" decodeActivityType
    let cq ← reqField fields "cum_qty" decodeDecimal
    let i ← reqField fields "id" decodeString
    let lq ← reqField fields "leaves_qty" decodeDecimal
    let pr ← reqField fields "price" decodeDecimal
    let q ← reqField fields "qty" decodeDecimal
    let sd ← reqField fields "side" decodeSide
    let sym ← reqField fields "symbol" decodeString
    let tt ← reqField fields "transaction_time" decodeDateTimeUtc
    let oid ← reqField fields "order_id" decodeUuid
    let ft ← reqField fields "type" decodeFillType
    some (Activity.TradeActivity aty cq i lq pr q sd sym tt oid ft)
  | _ => none

/-- Attempted decode of the `NonTradeActivity` shape.  The `qty` field uses
`from_str_optional`, and a `deserialize_with` attribute disables serde's
missing-field default for `Option` fields: `qty` must therefore be present,
though any non-string value of it decodes to `None`. -/
def decodeNonTradeActivity (j : Json) : Option Activity :=
  match j with
  | Json.obj fields => do
    let aty ← reqField fields "activity_type" decodeActivityType
    let i ← reqField fields "id" decodeString
    let dt ← reqField fields "date" decodeNaiveDate
    let na ← reqField fields "net_amount" decodeDecimal
    let sym ← optField fields "symbol" decodeOptString
    let q ←
      match lookupField fields "qty" with
      | some v => (from_str_optional_i32 v).toOption
      | none => none
    let psa ← optField fields "per_share_amount" decodeOptDecimal
    some (Activity.NonTradeActivity aty i dt na sym q psa)
  | _ => none

/-- The error serde reports when no variant of an untagged enum matches. -/
def untaggedActivityErr : String :=
  "data did not match any variant of untagged enum Activity"

/-- Model of the serde-derived `Deserialize` for the untagged `Activity`
union: the variants are tried in declaration order — `TradeActivity` first,
then `NonTradeActivity` — and the first success wins; when neither matches
the single generic untagged-enum error is reported. -/
def activityDecode (j : Json) : Except String Activity :=
  match decodeTradeActivity j with
  | some a => Except.ok a
  | none =>
    match decodeNonTradeActivity j with
    | some a => Except.ok a
    | none => Except.error untaggedActivityErr

/-- Model of `account_activities::AccountActivitiesPage`. -/
structure AccountActivitiesPage where
  page_size : Nat
  page_token : String

/-- Model of the closure passed to `QueryPaginator::new` in
`impl PaginatedRequest for GetAccountActivitiesByType`: from the previous
cursor and the page just received, the next cursor — present exactly when
the page has a last element. -/
def paginatorNextPage (prev : Option AccountActivitiesPage) (res : List Activity) :
    Option AccountActivitiesPage :=
  res.getLast?.map (fun x =>
    { page_size := (prev.map (fun y => y.page_size)).getD 100
      page_token := x.id })

end account_activities

/-- JSON value of the trade-activity payload from the repository's tests:
`side` and `price` are present along with the other trade fields. -/
def tradePayload : Json := Json.obj
  [("activity_type", Json.str "FILL"), ("cum_qty", Json.str "1"),
   ("id", Json.str "20190524113406977::8efc7b9a-8b2b-4000-9955-d36e7db0df74"),
   ("leaves_qty", Json.str "0"), ("price", Json.str "1.63"), ("qty", Json.str "1"),
   ("side", Json.str "buy"), ("symbol", Json.str "LPCN"),
   ("transaction_time", Json.str "2019-05-24T15:34:06.977Z"),
   ("order_id", Json.str "904837e3-3b76-47ec-b432-046db621571b"),
   ("type", Json.str "fill")]

/-- JSON value of the non-trade (dividend) payload from the repository's
tests: no `side` or `price` field. -/
def nontradePayload : Json := Json.obj
  [("activity_type", Json.str "DIV"),
   ("id", Json.str "20190801011955195::5f596936-6f23-4cef-bdf1-3806aae57dbf"),
   ("date", Json.str "2019-08-01"), ("net_amount", Json.str "1.02"),
   ("symbol", Json.str "T"), ("qty", Json.str "2"), ("per_share_amount", Json.str "0.51")]

/-- A concrete non-trade activity, used to instantiate pagination statements. -/
def sampleNonTrade : account_activities.Activity :=
  account_activities.Activity.NonTradeActivity account_activities.ActivityType.Dividend
    "20190801011955195::5f596936-6f23-4cef-bdf1-3806aae57dbf" ⟨2019, 8, 1⟩ ⟨102, 2⟩
    (some "T") (some 2) (some ⟨51, 2⟩)

/-- Body of a limit order of limit price 100 with the simple order class. -/
def limitSimpleBody : List (String × Json) :=
  ({ orders.SubmitOrder.new "AAPL" with
     order_type := orders.OrderType.Limit (Decimal.new 100 0)
     order_class := orders.OrderClass.Simple } : orders.SubmitOrder).encode

/-- Body of a bracket order matching the repository's complex-order test:
take-profit limit 301, stop-loss stop 299 with stop-limit 298.5. -/
def bracketBody : List (String × Json) :=
  ({ orders.SubmitOrder.new "SPY" with
     order_class := orders.OrderClass.Bracket ⟨Decimal.new 301 0⟩
       ⟨Decimal.new 299 0, some (Decimal.new 2985 1)⟩ } : orders.SubmitOrder).encode

/-- Whether `pat` stands at the start of `l`. -/
def beginsWith : List Char → List Char → Bool
  | _, [] => true
  | [], _ :: _ => false
  | c :: cs, p :: ps => c = p && beginsWith cs ps

/-- Whether `pat` occurs contiguously anywhere inside `l`. -/
def containsSub (l pat : List Char) : Bool :=
  match l with
  | [] => pat.isEmpty
  | _ :: cs => beginsWith l pat || containsSub cs pat

/-! ### Lemmas about decimal numerals -/

theorem digitsVal?_noneAcc (l : List Char) : digitsVal? l none = none := by
  cases l with
  | nil => rfl
  | cons c cs =>
    unfold digitsVal?
    cases digitVal? c <;> rfl

theorem digitsVal?_append (a b : List Char) (acc : Option Nat) :
    digitsVal? (a ++ b) acc = digitsVal? b (digitsVal? a acc) := by
  induction a generalizing acc with
  | nil => rfl
  | cons c cs ih =>
    rw [List.cons_append]
    cases acc with
    | none =>
      cases hdv : digitVal? c <;> simp [digitsVal?, hdv, digitsVal?_noneAcc]
    | some a0 =>
      cases hdv : digitVal? c with
      | none => simp [digitsVal?, hdv, digitsVal?_noneAcc]
      | some d => simp [digitsVal?, hdv, ih]

theorem digitVal?_ofNat : ∀ d, d < 10 → digitVal? (Char.ofNat (48 + d)) = some d := by
  decide

theorem decDigitsAux_mem (fuel : Nat) :
    ∀ (n : Nat), ∀ c ∈ decDigitsAux fuel n, ∃ d, d < 10 ∧ c = Char.ofNat (48 + d) := by
  induction fuel with
  | zero => intro n c hc; simp [decDigitsAux] at hc
  | succ f ih =>
    intro n c hc
    by_cases h : n = 0
    · simp [decDigitsAux, h] at hc
    · rw [decDigitsAux, if_neg h] at hc
      rcases List.mem_append.mp hc with h1 | h1
      · exact ih (n / 10) c h1
      · refine ⟨n % 10, Nat.mod_lt _ (by norm_num), ?_⟩
        simpa using h1

theorem decDigitsCore_mem (n : Nat) :
    ∀ c ∈ decDigitsCore n, ∃ d, d < 10 ∧ c = Char.ofNat (48 + d) :=
  decDigitsAux_mem n n

theorem decDigitsCore_ne_nil (n : Nat) (h : n ≠ 0) : decDigitsCore n ≠ [] := by
  obtain ⟨m, rfl⟩ := Nat.exists_eq_succ_of_ne_zero h
  rw [decDigitsCore, decDigitsAux, if_neg h]
  simp

theorem digitsVal?_decDigitsAux (fuel : Nat) :
    ∀ n ≤ fuel, digitsVal? (decDigitsAux fuel n) (some 0) = some n := by
  induction fuel with
  | zero =>
    intro n hn
    have : n = 0 := Nat.le_zero.mp hn
    subst this
    rfl
  | succ f ih =>
    intro n hn
    by_cases h : n = 0
    · subst h; rfl
    · have hdiv : n / 10 ≤ f := by
        have := Nat.div_lt_self (Nat.pos_of_ne_zero h) (show 1 < 10 by norm_num)
        omega
      rw [decDigitsAux, if_neg h, digitsVal?_append, ih (n / 10) hdiv]
      unfold digitsVal?
      rw [digitVal?_ofNat (n % 10) (Nat.mod_lt _ (by norm_num))]
      show some (n / 10 * 10 + n % 10) = some n
      congr 1
      omega

theorem digitsVal?_decDigitsCore (n : Nat) :
    digitsVal? (decDigitsCore n) (some 0) = some n :=
  digitsVal?_decDigitsAux n n (Nat.le_refl n)

theorem char_digit_ne_plus : ∀ d, d < 10 → Char.ofNat (48 + d) ≠ '+' := by
  decide

theorem parseUsize_natToWire (n : Nat) (h : n < 2 ^ 64) :
    parseUsize (natToWire n) = some n := by
  by_cases h0 : n = 0
  · subst h0
    decide
  · have hne := decDigitsCore_ne_nil n h0
    unfold natToWire parseUsize
    rw [if_neg h0]
    show parseUsizeChars (decDigitsCore n) = some n
    cases hd : decDigitsCore n with
    | nil => exact absurd hd hne
    | cons c cs =>
      have hcmem : c ∈ decDigitsCore n := by
        rw [hd]; exact List.mem_cons_self _ _
      obtain ⟨d, hd10, hc⟩ := decDigitsCore_mem n c hcmem
      have hcp : c ≠ '+' := hc ▸ char_digit_ne_plus d hd10
      have hstrip : (match c :: cs with
          | '+' :: rest => rest
          | l => l) = c :: cs := by
        split
        · next rest heq =>
            injection heq with h1 _
            exact absurd h1 hcp
        · rfl
      simp only [parseUsizeChars, hstrip]
      rw [← hd, digitsVal?_decDigitsCore n]
      simp only []
      rw [if_pos (show n < 2 ^ 64 from h)]

/-! ### Lemmas about `splitOnce` and identifier round-trips -/

theorem splitOnce_eq {sep : Char} :
    ∀ {l a b : List Char}, splitOnce sep l = some (a, b) → l = a ++ sep :: b := by
  intro l
  induction l with
  | nil => intro a b h; simp [splitOnce] at h
  | cons c cs ih =>
    intro a b h
    unfold splitOnce at h
    by_cases hc : c = sep
    · rw [if_pos hc] at h
      injection h with h'
      injection h' with h1 h2
      subst h1
      subst h2
      simp [hc]
    · rw [if_neg hc] at h
      cases hs : splitOnce sep cs with
      | none => rw [hs] at h; cases h
      | some p =>
        obtain ⟨p1, p2⟩ := p
        rw [hs] at h
        injection h with h'
        injection h' with h1 h2
        subst h1
        subst h2
        have := ih hs
        simp [this]

theorem splitOnce_of_not_mem {sep : Char} :
    ∀ {l : List Char}, sep ∉ l → splitOnce sep l = none := by
  intro l
  induction l with
  | nil => intro _; rfl
  | cons c cs ih =>
    intro h
    have hc : c ≠ sep := fun he => h (he ▸ List.mem_cons_self c cs)
    have hcs : sep ∉ cs := fun hm => h (List.mem_cons_of_mem c hm)
    unfold splitOnce
    rw [if_neg hc, ih hcs]

theorem splitOnce_append_of_not_mem {sep : Char} :
    ∀ {a : List Char}, sep ∉ a → ∀ b, splitOnce sep (a ++ sep :: b) = some (a, b) := by
  intro a
  induction a with
  | nil => intro _ b; simp [splitOnce]
  | cons c cs ih =>
    intro h b
    have hc : c ≠ sep := fun he => h (he ▸ List.mem_cons_self c cs)
    have hcs : sep ∉ cs := fun hm => h (List.mem_cons_of_mem c hm)
    rw [List.cons_append]
    unfold splitOnce
    rw [if_neg hc, ih hcs b]

theorem string_mk_append (a b : List Char) :
    String.mk a ++ String.mk b = String.mk (a ++ b) := rfl

/-- Round-trip for every string that is not UUID-parseable: formatting the
parsed identifier rebuilds the split pieces verbatim. -/
theorem identifier_roundtrip_of_not_uuid (s : String) (h : uuidParseStr s = none) :
    (identifierFromStr s).toWire = s := by
  cases h1 : splitOnce ':' s.data with
  | none =>
    simp only [identifierFromStr, h, h1]
    rfl
  | some p =>
    obtain ⟨sym, rest⟩ := p
    have hs : s.data = sym ++ ':' :: rest := splitOnce_eq h1
    cases h2 : splitOnce ':' rest with
    | none =>
      simp only [identifierFromStr, h, h1, h2, Identifier.toWire]
      apply String.ext
      rw [String.data_append, String.data_append]
      show sym ++ (':' :: []) ++ rest = s.data
      rw [hs]
      simp
    | some q =>
      obtain ⟨ex, cls⟩ := q
      have hr : rest = ex ++ ':' :: cls := splitOnce_eq h2
      simp only [identifierFromStr, h, h1, h2, Identifier.toWire]
      apply String.ext
      rw [String.data_append, String.data_append, String.data_append, String.data_append]
      show sym ++ (':' :: []) ++ ex ++ (':' :: []) ++ cls = s.data
      rw [hs, hr]
      simp

/-! ### Lemmas about Uuid formatting and parsing -/

theorem nibbles_length : ∀ (n u : Nat), (nibbles n u).length = n
  | 0, _ => rfl
  | n + 1, u => by simp [nibbles, nibbles_length n]

theorem nibbles_lt : ∀ (n u : Nat), ∀ d ∈ nibbles n u, d < 16
  | 0, _ => by simp [nibbles]
  | n + 1, u => by
    intro d hd
    rw [nibbles] at hd
    rcases List.mem_append.mp hd with h1 | h1
    · exact nibbles_lt n (u / 16) d h1
    · have he : d = u % 16 := by simpa using h1
      exact he ▸ Nat.mod_lt _ (by norm_num)

theorem nibblesVal_nibbles : ∀ (n u : Nat), nibblesVal (nibbles n u) = u % 16 ^ n
  | 0, u => by simp [nibbles, nibblesVal]; omega
  | n + 1, u => by
    have ih := nibblesVal_nibbles n (u / 16)
    unfold nibblesVal at ih ⊢
    rw [nibbles, List.foldl_append, ih]
    simp only [List.foldl_cons, List.foldl_nil]
    have hp : 16 ^ (n + 1) = 16 * 16 ^ n := by ring
    rw [hp, Nat.mod_mul]
    ring

theorem hexVal?_toHexChar : ∀ d, d < 16 → hexVal? (toHexChar d) = some d := by
  decide

theorem parseNibbles_map : ∀ (l : List Nat), (∀ d ∈ l, d < 16) →
    parseNibbles (l.map toHexChar) = some l := by
  intro l
  induction l with
  | nil => intro _; rfl
  | cons d ds ih =>
    intro h
    have hd : d < 16 := h d (List.mem_cons_self _ _)
    have hds : ∀ x ∈ ds, x < 16 := fun x hx => h x (List.mem_cons_of_mem _ hx)
    simp only [List.map_cons, parseNibbles]
    rw [hexVal?_toHexChar d hd, ih hds]

theorem dehyph_parts (a b c d e : List Char) (ha : a.length = 8) (hb : b.length = 4)
    (hc : c.length = 4) (hd : d.length = 4) (he : e.length = 12) :
    dehyphenate? (a ++ '-' :: (b ++ '-' :: (c ++ '-' :: (d ++ '-' :: e)))) =
      some (a ++ (b ++ (c ++ (d ++ e)))) := by
  have hre1 : a ++ '-' :: (b ++ '-' :: (c ++ '-' :: (d ++ '-' :: e))) =
      (a ++ '-' :: b) ++ '-' :: (c ++ '-' :: (d ++ '-' :: e)) := by simp
  have hre2 : a ++ '-' :: (b ++ '-' :: (c ++ '-' :: (d ++ '-' :: e))) =
      ((a ++ '-' :: b) ++ '-' :: c) ++ '-' :: (d ++ '-' :: e) := by simp
  have hre3 : a ++ '-' :: (b ++ '-' :: (c ++ '-' :: (d ++ '-' :: e))) =
      (((a ++ '-' :: b) ++ '-' :: c) ++ '-' :: d) ++ '-' :: e := by simp
  have hg1 : (a ++ '-' :: (b ++ '-' :: (c ++ '-' :: (d ++ '-' :: e)))).get? 8 = some '-' := by
    rw [List.get?_append_right (by omega)]
    simp [ha]
  have hg2 : (a ++ '-' :: (b ++ '-' :: (c ++ '-' :: (d ++ '-' :: e)))).get? 13 = some '-' := by
    rw [hre1, List.get?_append_right (by simp [ha, hb])]
    simp [ha, hb]
  have hg3 : (a ++ '-' :: (b ++ '-' :: (c ++ '-' :: (d ++ '-' :: e)))).get? 18 = some '-' := by
    rw [hre2, List.get?_append_right (by simp [ha, hb, hc])]
    simp [ha, hb, hc]
  have hg4 : (a ++ '-' :: (b ++ '-' :: (c ++ '-' :: (d ++ '-' :: e)))).get? 23 = some '-' := by
    rw [hre3, List.get?_append_right (by simp [ha, hb, hc, hd])]
    simp [ha, hb, hc, hd]
  unfold dehyphenate?
  rw [if_pos ⟨hg1, hg2, hg3, hg4⟩]
  have ht1 : (a ++ '-' :: (b ++ '-' :: (c ++ '-' :: (d ++ '-' :: e)))).take 8 = a :=
    List.take_left' ha
  have hd9 : (a ++ '-' :: (b ++ '-' :: (c ++ '-' :: (d ++ '-' :: e)))).drop 9 =
      b ++ '-' :: (c ++ '-' :: (d ++ '-' :: e)) := by
    have : a ++ '-' :: (b ++ '-' :: (c ++ '-' :: (d ++ '-' :: e))) =
        (a ++ ['-']) ++ (b ++ '-' :: (c ++ '-' :: (d ++ '-' :: e))) := by simp
    rw [this, List.drop_left' (by simp [ha])]
  have hd14 : (a ++ '-' :: (b ++ '-' :: (c ++ '-' :: (d ++ '-' :: e)))).drop 14 =
      c ++ '-' :: (d ++ '-' :: e) := by
    have : a ++ '-' :: (b ++ '-' :: (c ++ '-' :: (d ++ '-' :: e))) =
        ((a ++ ['-']) ++ (b ++ ['-'])) ++ (c ++ '-' :: (d ++ '-' :: e)) := by simp
    rw [this, List.drop_left' (by simp [ha, hb])]
  have hd19 : (a ++ '-' :: (b ++ '-' :: (c ++ '-' :: (d ++ '-' :: e)))).drop 19 =
      d ++ '-' :: e := by
    have : a ++ '-' :: (b ++ '-' :: (c ++ '-' :: (d ++ '-' :: e))) =
        (((a ++ ['-']) ++ (b ++ ['-'])) ++ (c ++ ['-'])) ++ (d ++ '-' :: e) := by simp
    rw [this, List.drop_left' (by simp [ha, hb, hc])]
  have hd24 : (a ++ '-' :: (b ++ '-' :: (c ++ '-' :: (d ++ '-' :: e)))).drop 24 = e := by
    have : a ++ '-' :: (b ++ '-' :: (c ++ '-' :: (d ++ '-' :: e))) =
        ((((a ++ ['-']) ++ (b ++ ['-'])) ++ (c ++ ['-'])) ++ (d ++ ['-'])) ++ e := by simp
    rw [this, List.drop_left' (by simp [ha, hb, hc, hd])]
  rw [ht1, hd9, hd14, hd19, hd24, List.take_left' hb, List.take_left' hc, List.take_left' hd]
  simp

theorem dehyphenate_hyphenate (cs : List Char) (h : cs.length = 32) :
    dehyphenate? (hyphenate cs) = some cs := by
  have ha : (cs.take 8).length = 8 := by rw [List.length_take, h]; decide
  have hb : ((cs.drop 8).take 4).length = 4 := by
    rw [List.length_take, List.length_drop, h]; decide
  have hc : ((cs.drop 12).take 4).length = 4 := by
    rw [List.length_take, List.length_drop, h]; decide
  have hd : ((cs.drop 16).take 4).length = 4 := by
    rw [List.length_take, List.length_drop, h]; decide
  have he : (cs.drop 20).length = 12 := by rw [List.length_drop, h]
  have hmain := dehyph_parts _ _ _ _ _ ha hb hc hd he
  show dehyphenate? (cs.take 8 ++ '-' :: ((cs.drop 8).take 4 ++ '-' :: ((cs.drop 12).take 4
      ++ '-' :: ((cs.drop 16).take 4 ++ '-' :: cs.drop 20)))) = some cs
  rw [hmain]
  congr 1
  have h4 : (cs.drop 16).take 4 ++ cs.drop 20 = cs.drop 16 := by
    have hx : (cs.drop 16).drop 4 = cs.drop 20 := by rw [List.drop_drop]
    rw [← hx, List.take_append_drop]
  have h3 : (cs.drop 12).take 4 ++ cs.drop 16 = cs.drop 12 := by
    have hx : (cs.drop 12).drop 4 = cs.drop 16 := by rw [List.drop_drop]
    rw [← hx, List.take_append_drop]
  have h2 : (cs.drop 8).take 4 ++ cs.drop 12 = cs.drop 8 := by
    have hx : (cs.drop 8).drop 4 = cs.drop 12 := by rw [List.drop_drop]
    rw [← hx, List.take_append_drop]
  rw [h4, h3, h2, List.take_append_drop]

theorem hyphenate_length (cs : List Char) (h : cs.length = 32) :
    (hyphenate cs).length = 36 := by
  simp [hyphenate, h]

theorem simpleChars_length (u : Uuid) : u.simpleChars.length = 32 := by
  simp [Uuid.simpleChars, nibbles_length]

theorem uuidFromHexChars_simpleChars (u : Uuid) (h : u.val < 2 ^ 128) :
    uuidFromHexChars u.simpleChars = some u := by
  unfold uuidFromHexChars Uuid.simpleChars
  rw [parseNibbles_map _ (nibbles_lt 32 u.val)]
  simp only [Option.map_some']
  rw [nibblesVal_nibbles]
  have hlt : u.val < 16 ^ 32 := by
    have : (16 : Nat) ^ 32 = 2 ^ 128 := by norm_num
    omega
  rw [Nat.mod_eq_of_lt hlt]

theorem uuidParse_format (u : Uuid) (h : u.val < 2 ^ 128) :
    uuidParseStr u.format = some u := by
  show uuidParseChars (String.mk (hyphenate u.simpleChars)).data = some u
  show uuidParseChars (hyphenate u.simpleChars) = some u
  have hlen : (hyphenate u.simpleChars).length = 36 :=
    hyphenate_length _ (simpleChars_length u)
  unfold uuidParseChars
  rw [hlen]
  rw [if_neg (by norm_num), if_pos rfl, dehyphenate_hyphenate _ (simpleChars_length u)]
  exact uuidFromHexChars_simpleChars u h

/-! ### Claim theorems -/

/-- C1: for every pagination step of the account-activities paginator, a
non-empty previous page yields a next cursor whose page_token is the id of
the page's last item and whose page_size is the previous cursor's
page_size, or 100 when there was no previous cursor; an empty page yields
no next cursor, stopping the sequence. -/
theorem c1_paginator_next_cursor (prev : Option account_activities.AccountActivitiesPage)
    (res : List account_activities.Activity) :
    (∀ h : res ≠ [],
      account_activities.paginatorNextPage prev res = some
        { page_size := match prev with
            | some p => p.page_size
            | none => 100
          page_token := (res.getLast h).id })
    ∧ (res = [] → account_activities.paginatorNextPage prev res = none) := by
  constructor
  · intro h
    unfold account_activities.paginatorNextPage
    rw [List.getLast?_eq_getLast res h]
    cases prev with
    | none => rfl
    | some p => rfl
  · intro h
    subst h
    rfl

/-- Witness for C1: a singleton page with no previous cursor produces the
cursor with the default page size 100 and the item's id as token. -/
theorem c1_paginator_witness :
    account_activities.paginatorNextPage none [sampleNonTrade] = some
      { page_size := 100
        page_token := "20190801011955195::5f596936-6f23-4cef-bdf1-3806aae57dbf" } :=
  (c1_paginator_next_cursor none [sampleNonTrade]).1 (by simp)

/-- C2 counterexample: the string "urn:uuid:00000000-0000-0000-0000-000000000000"
is of the symbol+exchange+class form SYM:EXCH:CLASS, yet the UUID parse
attempted first accepts it, so formatting the parse yields the canonical
hyphenated text instead of the original string; likewise an uppercase-hex
hyphenated UUID string — a UUID in text form — re-formats in canonical
lowercase.  In both cases format(parse(s)) differs from s. -/
theorem c2_roundtrip_counterexample :
    Identifier.toWire (identifierFromStr "urn:uuid:00000000-0000-0000-0000-000000000000")
      ≠ "urn:uuid:00000000-0000-0000-0000-000000000000"
    ∧ Identifier.toWire (identifierFromStr "00000000-0000-0000-0000-00000000000A")
      ≠ "00000000-0000-0000-0000-00000000000A" := by
  constructor <;> decide

/-- C2 amended: format(parse(s)) = s holds for every string that does not
parse as a UUID — in particular all bare-symbol, symbol+exchange, and
symbol+exchange+class forms that are not UUID-parseable — and for every
canonical (lowercase hyphenated) UUID string. -/
theorem c2_roundtrip_amended :
    (∀ s : String, uuidParseStr s = none → (identifierFromStr s).toWire = s)
    ∧ (∀ u : Uuid, u.val < 2 ^ 128 →
        (identifierFromStr u.format).toWire = u.format) := by
  constructor
  · exact identifier_roundtrip_of_not_uuid
  · intro u h
    unfold identifierFromStr
    rw [uuidParse_format u h]
    rfl

/-- Witness for C2: the symbol+exchange form "AAPL:NYSE" and the canonical
nil-UUID string both round-trip. -/
theorem c2_roundtrip_witness :
    ((identifierFromStr "AAPL:NYSE").toWire = "AAPL:NYSE")
    ∧ ((identifierFromStr (Uuid.format Uuid.nil)).toWire = Uuid.format Uuid.nil) :=
  ⟨c2_roundtrip_amended.1 "AAPL:NYSE" (by decide),
   c2_roundtrip_amended.2 Uuid.nil (by decide)⟩

/-- C3: identifier parsing is total and follows the algorithm — UUID parse
first (success gives AssetId); otherwise split on the first colon: no colon
gives Symbol(s, None); one split gives exchange (and the remainder is split
once more, everything after the second colon kept verbatim as asset_class);
with the four concrete examples of the specification. -/
theorem c3_parse_algorithm :
    (∀ s u, uuidParseStr s = some u → identifierFromStr s = Identifier.AssetId u)
    ∧ (∀ s : String, uuidParseStr s = none → ':' ∉ s.data →
        identifierFromStr s = Identifier.Symbol s none)
    ∧ (∀ (s : String) (pre suf : List Char), uuidParseStr s = none →
        s.data = pre ++ ':' :: suf → ':' ∉ pre → ':' ∉ suf →
        identifierFromStr s =
          Identifier.Symbol (String.mk pre) (some (String.mk suf, none)))
    ∧ (∀ (s : String) (pre ex cls : List Char), uuidParseStr s = none →
        s.data = pre ++ ':' :: (ex ++ ':' :: cls) → ':' ∉ pre → ':' ∉ ex →
        identifierFromStr s =
          Identifier.Symbol (String.mk pre) (some (String.mk ex, some (String.mk cls))))
    ∧ identifierFromStr "AAPL" = Identifier.Symbol "AAPL" none
    ∧ identifierFromStr "AAPL:NYSE" = Identifier.Symbol "AAPL" (some ("NYSE", none))
    ∧ identifierFromStr "AAPL:NYSE:us_equity" =
        Identifier.Symbol "AAPL" (some ("NYSE", some "us_equity"))
    ∧ identifierFromStr "00000000-0000-0000-0000-000000000000" =
        Identifier.AssetId Uuid.nil := by
  refine ⟨?_, ?_, ?_, ?_, rfl, rfl, rfl, rfl⟩
  · intro s u h
    unfold identifierFromStr
    rw [h]
  · intro s h hc
    unfold identifierFromStr
    rw [h, splitOnce_of_not_mem hc]
  · intro s pre suf h hsplit hpre hsuf
    unfold identifierFromStr
    rw [h, hsplit, splitOnce_append_of_not_mem hpre suf]
    simp only [splitOnce_of_not_mem hsuf]
  · intro s pre ex cls h hsplit hpre hex
    unfold identifierFromStr
    rw [h, hsplit, splitOnce_append_of_not_mem hpre _]
    simp only [splitOnce_append_of_not_mem hex cls]

/-- Witness for C3: the general no-colon and one-colon clauses applied to
the concrete strings "AAPL" and "AAPL:NYSE". -/
theorem c3_parse_witness :
    identifierFromStr "AAPL" = Identifier.Symbol "AAPL" none
    ∧ identifierFromStr "AAPL:NYSE" =
        Identifier.Symbol "AAPL" (some ("NYSE", none)) :=
  ⟨c3_parse_algorithm.2.1 "AAPL" (by decide) (by decide),
   c3_parse_algorithm.2.2.1 "AAPL:NYSE" ['A', 'A', 'P', 'L'] ['N', 'Y', 'S', 'E']
     (by decide) (by decide) (by decide) (by decide)⟩

/-- C4 counterexample: the lenient field codec (`from_str_optional`, used
for NonTradeActivity.qty) given the numeric literal 15 decodes to None, not
to the value 15 as the claim states. -/
theorem c4_lenient_counterexample :
    from_str_optional_i32 (Json.num 15) = Except.ok none
    ∧ from_str_optional_i32 (Json.num 15) ≠ Except.ok (some 15) := by
  refine ⟨rfl, fun h => ?_⟩
  have h' : (none : Option Int) = some 15 := Except.ok.inj h
  exact Option.noConfusion h'

/-- C4 amended: the STRICT-STRING profile (order quantities) rejects the
numeric literal 15 and accepts the string "15" as 15; the lenient profile
(NonTradeActivity.qty) accepts the string "15" as Some 15, but silently
maps the numeric literal 15 (or any non-string value) to None rather than
reading it as 15. -/
theorem c4_profiles_amended :
    (from_str_usize (Json.num 15)).toOption = none
    ∧ from_str_usize (Json.str "15") = Except.ok 15
    ∧ from_str_optional_i32 (Json.str "15") = Except.ok (some 15)
    ∧ from_str_optional_i32 (Json.num 15) = Except.ok none :=
  ⟨rfl, rfl, rfl, rfl⟩

/-- C5 counterexample: the fractional decimal-string token "1.5" is not
read exactly by the order-quantity codec — it fails to decode, because
Order.qty is an unsigned integer, not an exact decimal. -/
theorem c5_qty_counterexample :
    (from_str_usize (Json.str "1.5")).toOption = none
    ∧ (orders.decodeOrderQtyFields (Json.obj
        [("qty", Json.str "1.5"), ("filled_qty", Json.str "0")])).toOption = none :=
  ⟨rfl, rfl⟩

/-- C5 amended: qty and filled_qty are unsigned 64-bit integers; integer
decimal-string tokens below 2^64 decode to the exact integer and re-encode
as the same canonical decimal strings, so the round-trip is lossless on
those tokens; fractional tokens are decode errors. -/
theorem c5_qty_amended (q fq : Nat) (hq : q < 2 ^ 64) (hfq : fq < 2 ^ 64) :
    orders.decodeOrderQtyFields (Json.obj (orders.encodeOrderQtyFields q fq)) =
      Except.ok (q, fq)
    ∧ orders.encodeOrderQtyFields q fq =
      [("qty", Json.str (natToWire q)), ("filled_qty", Json.str (natToWire fq))] := by
  refine ⟨?_, rfl⟩
  have h1 : from_str_usize (Json.str (natToWire q)) = Except.ok q := by
    simp only [from_str_usize]
    rw [parseUsize_natToWire q hq]
  have h2 : from_str_usize (Json.str (natToWire fq)) = Except.ok fq := by
    simp only [from_str_usize]
    rw [parseUsize_natToWire fq hfq]
  simp [orders.decodeOrderQtyFields, orders.encodeOrderQtyFields, to_string_usize,
    lookupField, h1, h2]

/-- Witness for C5: the pair (15, 0) of the repository's test order
round-trips through the quantity codec. -/
theorem c5_qty_witness :
    orders.decodeOrderQtyFields (Json.obj (orders.encodeOrderQtyFields 15 0)) =
      Except.ok (15, 0)
    ∧ orders.encodeOrderQtyFields 15 0 =
      [("qty", Json.str (natToWire 15)), ("filled_qty", Json.str (natToWire 0))] :=
  c5_qty_amended 15 0 (by norm_num) (by norm_num)

/-- C6 counterexample: encoding a SubmitOrder with no client_order_id set
yields a body in which the client_order_id key is present with value null,
not a body with no client_order_id key. -/
theorem c6_optional_counterexample :
    lookupField (orders.SubmitOrder.new "AAPL").encode "client_order_id" = some Json.null
    ∧ lookupField (orders.SubmitOrder.new "AAPL").encode "client_order_id" ≠ none := by
  refine ⟨rfl, fun h => ?_⟩
  rw [show lookupField (orders.SubmitOrder.new "AAPL").encode "client_order_id"
      = some Json.null from rfl] at h
  exact Option.noConfusion h

/-- C6 amended: optional fields carrying skip_serializing_if are omitted
when unset (e.g. StopLossSpec.limit_price), but SubmitOrder.client_order_id
carries no such attribute and is therefore emitted as null when unset (and
as the string when set). -/
theorem c6_optional_amended :
    (∀ s : String,
      lookupField (orders.SubmitOrder.new s).encode "client_order_id" = some Json.null)
    ∧ (∀ s cid : String,
        lookupField ({ orders.SubmitOrder.new s with client_order_id := some cid }
          : orders.SubmitOrder).encode "client_order_id" = some (Json.str cid))
    ∧ (∀ sp : Decimal, orders.StopLossSpec.encode ⟨sp, none⟩ =
        Json.obj [("stop_price", Json.str sp.toWire)])
    ∧ (∀ sp lp : Decimal, orders.StopLossSpec.encode ⟨sp, some lp⟩ =
        Json.obj [("stop_price", Json.str sp.toWire), ("limit_price", Json.str lp.toWire)]) :=
  ⟨fun _ => rfl, fun _ _ => rfl, fun _ => rfl, fun _ _ => rfl⟩

/-- C7: encoding a SubmitOrder with order type Limit{limit_price = 100} and
order class Simple yields a body with top-level "type": "limit" and
"limit_price": "100" and no take_profit or stop_loss leg keys. -/
theorem c7_limit_simple_encoding :
    lookupField limitSimpleBody "type" = some (Json.str "limit")
    ∧ lookupField limitSimpleBody "limit_price" = some (Json.str "100")
    ∧ lookupField limitSimpleBody "take_profit" = none
    ∧ lookupField limitSimpleBody "stop_loss" = none :=
  ⟨rfl, rfl, rfl, rfl⟩

/-- C8: encoding a SubmitOrder with a Bracket order class yields top-level
order_class, take_profit and stop_loss keys flattened alongside the base
order fields, with take_profit = {"limit_price": "301"} and stop_loss =
{"stop_price": "299", "limit_price": "298.5"}. -/
theorem c8_bracket_encoding :
    lookupField bracketBody "order_class" = some (Json.str "bracket")
    ∧ lookupField bracketBody "take_profit" =
        some (Json.obj [("limit_price", Json.str "301")])
    ∧ lookupField bracketBody "stop_loss" =
        some (Json.obj [("stop_price", Json.str "299"), ("limit_price", Json.str "298.5")])
    ∧ lookupField bracketBody "symbol" = some (Json.str "SPY")
    ∧ lookupField bracketBody "type" = some (Json.str "market") :=
  ⟨rfl, rfl, rfl, rfl, rfl⟩

/-- C9 counterexample: a payload matching neither activity shape fails with
serde's single generic untagged-enum error, which does not name the
attempted shapes TradeActivity and NonTradeActivity. -/
theorem c9_activity_counterexample :
    account_activities.activityDecode (Json.obj []) =
      Except.error account_activities.untaggedActivityErr
    ∧ containsSub account_activities.untaggedActivityErr.data ("TradeActivity".data) = false
    ∧ containsSub account_activities.untaggedActivityErr.data ("NonTradeActivity".data)
        = false :=
  ⟨rfl, by decide, by decide⟩

/-- C9 amended: decoding an Activity tries TradeActivity before
NonTradeActivity and accepts the first whose required fields are all
present: the test payload with side and price decodes as a TradeActivity,
the one without as a NonTradeActivity; a payload matching neither fails
with serde's generic error naming only the untagged enum Activity. -/
theorem c9_activity_amended :
    (∀ j a, account_activities.decodeTradeActivity j = some a →
        account_activities.activityDecode j = Except.ok a)
    ∧ (∀ j a, account_activities.decodeTradeActivity j = none →
        account_activities.decodeNonTradeActivity j = some a →
        account_activities.activityDecode j = Except.ok a)
    ∧ (∀ j, account_activities.decodeTradeActivity j = none →
        account_activities.decodeNonTradeActivity j = none →
        account_activities.activityDecode j =
          Except.error account_activities.untaggedActivityErr)
    ∧ (account_activities.activityDecode tradePayload).toOption.map
        account_activities.Activity.isTrade = some true
    ∧ (account_activities.activityDecode nontradePayload).toOption.map
        account_activities.Activity.isTrade = some false := by
  refine ⟨?_, ?_, ?_, rfl, rfl⟩
  · intro j a h
    unfold account_activities.activityDecode
    rw [h]
  · intro j a h1 h2
    unfold account_activities.activityDecode
    rw [h1, h2]
  · intro j h1 h2
    unfold account_activities.activityDecode
    rw [h1, h2]

/-- Witness for C9: the no-match clause applied to the empty object. -/
theorem c9_activity_witness :
    account_activities.activityDecode (Json.obj []) =
      Except.error account_activities.untaggedActivityErr :=
  c9_activity_amended.2.2.1 (Json.obj []) rfl rfl

/-- C10: SubmitOrder::new(s) builds exactly the request with symbol s,
qty 1, side Buy, order type Market, time-in-force GoodTilCancelled (not the
TimeInForce Default, which is Day), extended_hours false, no
client_order_id, and the Simple order class. -/
theorem c10_submit_order_defaults :
    (∀ s : String, orders.SubmitOrder.new s =
      { symbol := s
        qty := 1
        side := orders.Side.Buy
        order_type := orders.OrderType.Market
        time_in_force := orders.TimeInForce.GoodTilCancelled
        extended_hours := false
        client_order_id := none
        order_class := orders.OrderClass.Simple })
    ∧ orders.TimeInForce.default = orders.TimeInForce.Day :=
  ⟨fun _ => rfl, rfl⟩

end Apca
